import Mathlib

/-!
Shallow embedding of `src/scraper/GameGleaner.py`.

The script scrapes Itch.io listing pages, builds one record per game cell,
downloads thumbnails, and merges the new records into `data/combined.csv`
with `pd.concat([old_df, df]).drop_duplicates(subset=["title", "url"],
keep="first")`.

Modelling choices:
* network and filesystem effects are threaded through an explicit `FS`
  state (the set of written file paths and the log of URLs fetched);
  whether a GET succeeds is an environment function `FetchEnv.ok`;
* a parsed game cell of a listing page is an `Item` (optional title text,
  optional href attribute, optional author text, optional price text,
  optional thumbnail source), mirroring exactly the selector fallbacks of
  `scrape_listing_page`;
* a fetched listing page is `Option (List Item)`: `none` models a
  `requests` failure or bad status (the `except` branch returning `[]`);
* `urljoin` models `urllib.parse.urljoin` for the cases arising with base
  `https://itch.io`: an absolute reference is returned unchanged,
  otherwise the reference is attached to the base.
-/

/-- `BASE_URL` from the script. -/
def BASE_URL : String := "https://itch.io"

/-- Filesystem / network state: file paths written so far and the log of
URLs a GET request was issued for. -/
structure FS where
  files : List String
  fetches : List String
deriving DecidableEq

/-- Environment: which GET requests succeed with status 200. -/
structure FetchEnv where
  ok : String → Bool

/-- Does the character list start with the pattern?  (Structural model of
`str.startswith`.) -/
def chars_start_with : List Char → List Char → Bool
  | [], _ => true
  | _ :: _, [] => false
  | p :: ps, c :: cs => p == c && chars_start_with ps cs

/-- Does the character list contain the pattern as a contiguous run?
(Structural model of the `in` test used for scheme detection.) -/
def chars_contain (pat : List Char) : List Char → Bool
  | [] => pat.isEmpty
  | c :: cs => chars_start_with pat (c :: cs) || chars_contain pat cs

/-- `str.split(sep)` for a one-character separator, on character lists;
like Python's, it yields one (possibly empty) group per separator gap. -/
def split_on_char (sep : Char) : List Char → List (List Char)
  | [] => [[]]
  | c :: cs =>
    let r := split_on_char sep cs
    if c = sep then [] :: r
    else
      match r with
      | [] => [[c]]
      | g :: gs => (c :: g) :: gs

/-- `str.strip()`: drop whitespace from both ends. -/
def py_strip (s : String) : String :=
  String.mk (((s.data.dropWhile Char.isWhitespace).reverse.dropWhile
    Char.isWhitespace).reverse)

/-- The character class `[a-zA-Z0-9_-]` of the `re.sub` pattern in
`download_thumbnail`. -/
def allowed_char (c : Char) : Bool :=
  ('a' ≤ c && c ≤ 'z') || ('A' ≤ c && c ≤ 'Z') || ('0' ≤ c && c ≤ '9') ||
    c == '_' || c == '-'

/-- One step of `re.sub(r"[^a-zA-Z0-9_-]", "_", title)`. -/
def sanitize_char (c : Char) : Char :=
  if allowed_char c then c else '_'

/-- `re.sub(r"[^a-zA-Z0-9_-]", "_", title)[:50]` from `download_thumbnail`. -/
def safe_title (title : String) : String :=
  String.mk ((title.data.map sanitize_char).take 50)

/-- `thumbnail_url.split(".")[-1].split("?")[0]` from `download_thumbnail`. -/
def thumb_ext (url : String) : String :=
  String.mk ((split_on_char '?' ((split_on_char '.' url.data).getLastD [])).headD [])

/-- `os.path.join(thumb_dir, f"{scrape_date}_{safe_title}.{ext}")`. -/
def thumb_filepath (url title scrape_date : String) : String :=
  "data/thumbnails/" ++ scrape_date ++ "_" ++ safe_title title ++ "." ++ thumb_ext url

/-- `download_thumbnail` from the script.  A falsy (`None` or empty) URL
returns `None` with no request.  Otherwise a GET request is always issued
(logged in `FS.fetches`); on success the content is written to the derived
path and the path returned, on failure `None` is returned. -/
def download_thumbnail (env : FetchEnv) (thumbnail_url : Option String)
    (title scrape_date : String) (fs : FS) : Option String × FS :=
  match thumbnail_url with
  | none => (none, fs)
  | some u =>
    if u = "" then (none, fs)
    else
      let filepath := thumb_filepath u title scrape_date
      let fs1 : FS := { fs with fetches := fs.fetches ++ [u] }
      if env.ok u then (some filepath, { fs1 with files := fs1.files ++ [filepath] })
      else (none, fs1)

/-- A parsed `.game_cell` of a listing page: the optional pieces the
script's selectors can find.  `titleText = none` models a missing
`.game_title a` element; `href` is its `href` attribute when present;
`thumbSrc` is the resolved `data-lazy_src` / `src` fallback. -/
structure Item where
  titleText : Option String
  href : Option String
  authorText : Option String
  priceText : Option String
  thumbSrc : Option String
deriving DecidableEq

/-- A row of the combined dataset, with the fields `scrape_listing_page`
puts into `game_data`. -/
structure Row where
  title : String
  url : String
  author : String
  price : String
  thumbnail_path : Option String
  scrape_date : String
deriving DecidableEq

/-- Model of `urllib.parse.urljoin(BASE_URL, rel)` for the base used by the
script: an absolute reference (containing `://`) is returned unchanged; a
root-relative or bare reference is attached to the base. -/
def urljoin (base rel : String) : String :=
  if chars_contain "://".data rel.data then rel
  else if chars_start_with "/".data rel.data then base ++ rel
  else base ++ "/" ++ rel

/-- `price_element.text.strip() if price_element else "Free"` — the whole
price handling of the script. -/
def extract_price (priceText : Option String) : String :=
  match priceText with
  | some s => py_strip s
  | none => "Free"

/-- The per-item body of the loop in `scrape_listing_page`: build one
`game_data` record (and download its thumbnail). -/
def mk_game_data (env : FetchEnv) (it : Item) (scrape_date : String) (fs : FS) :
    Row × FS :=
  let title := match it.titleText with
    | some t => py_strip t
    | none => "N/A"
  let rel := match it.titleText with
    | some _ => match it.href with
      | some h => h
      | none => ""
    | none => ""
  let url := if rel = "" then "N/A" else urljoin BASE_URL rel
  let author := match it.authorText with
    | some a => py_strip a
    | none => "N/A"
  let thumb := download_thumbnail env it.thumbSrc title scrape_date fs
  ({ title := title, url := url, author := author,
     price := extract_price it.priceText,
     thumbnail_path := thumb.1, scrape_date := scrape_date }, thumb.2)

/-- The loop of `scrape_listing_page` over the page's game cells. -/
def scrape_items (env : FetchEnv) (d : String) : List Item → FS → List Row × FS
  | [], fs => ([], fs)
  | it :: rest, fs =>
    let p := mk_game_data env it d fs
    let q := scrape_items env d rest p.2
    (p.1 :: q.1, q.2)

/-- `scrape_listing_page`: a fetch failure (`none`) returns `[]`, otherwise
each parsed game cell yields one record. -/
def scrape_listing_page (env : FetchEnv) (fetched : Option (List Item))
    (d : String) (fs : FS) : List Row × FS :=
  match fetched with
  | none => ([], fs)
  | some items => scrape_items env d items fs

/-- `range(1, 3)` from `run_scraper`: the page numbers requested for each
listing category. -/
def page_numbers : List Nat := [1, 2]

/-- The inner loop of `run_scraper` for one listing category: scrape the
pages of `page_numbers` in order and concatenate the records
(`all_games.extend(...)`). -/
def scrape_listing (env : FetchEnv) (fp : Nat → Option (List Item))
    (d : String) (fs : FS) : List Row × FS :=
  page_numbers.foldl
    (fun acc p =>
      let res := scrape_listing_page env (fp p) d acc.2
      (acc.1 ++ res.1, res.2))
    ([], fs)

/-- The dedup key of `drop_duplicates(subset=["title", "url"])`. -/
def row_key (r : Row) : String × String := (r.title, r.url)

/-- The keys of a list of rows. -/
def keys_of (rows : List Row) : List (String × String) := rows.map row_key

/-- `drop_duplicates(..., keep="first")` worker: keep each row whose key
was not seen before, scanning left to right. -/
def dedup_aux (seen : List (String × String)) : List Row → List Row
  | [] => []
  | r :: rs =>
    if row_key r ∈ seen then dedup_aux seen rs
    else r :: dedup_aux (row_key r :: seen) rs

/-- `DataFrame.drop_duplicates(subset=["title", "url"], keep="first")`. -/
def drop_duplicates_first (rows : List Row) : List Row := dedup_aux [] rows

/-- `pd.concat([old_df, df], ignore_index=True).drop_duplicates(subset=
["title", "url"], keep="first")` — the merge of `run_scraper`. -/
def merge_rows (oldRows newRows : List Row) : List Row :=
  drop_duplicates_first (oldRows ++ newRows)

/-- First row carrying a given key (the row `keep="first"` retains). -/
def find_row (k : String × String) : List Row → Option Row
  | [] => none
  | r :: rs => if row_key r = k then some r else find_row k rs

/-- Whether a URL string is absolute. -/
def is_absolute_url (s : String) : Bool :=
  chars_start_with "http://".data s.data || chars_start_with "https://".data s.data

/-! ### Lemmas about `dedup_aux` -/

/-- `dedup_aux` depends on `seen` only through membership. -/
theorem dedup_aux_congr (xs : List Row) : ∀ s₁ s₂ : List (String × String),
    (∀ k, k ∈ s₁ ↔ k ∈ s₂) → dedup_aux s₁ xs = dedup_aux s₂ xs := by
  induction xs with
  | nil => intro s₁ s₂ _; rfl
  | cons r rs ih =>
    intro s₁ s₂ h
    simp only [dedup_aux]
    by_cases hk : row_key r ∈ s₁
    · rw [if_pos hk, if_pos ((h _).mp hk), ih s₁ s₂ h]
    · have hk2 : row_key r ∉ s₂ := fun hc => hk ((h _).mpr hc)
      rw [if_neg hk, if_neg hk2,
        ih (row_key r :: s₁) (row_key r :: s₂) (by intro k; simp [List.mem_cons, h k])]

/-- Splitting `dedup_aux` across an append: the second half is deduplicated
against the keys of the first half as well. -/
theorem dedup_aux_append (xs : List Row) : ∀ (ys : List Row) (seen : List (String × String)),
    dedup_aux seen (xs ++ ys) = dedup_aux seen xs ++ dedup_aux (keys_of xs ++ seen) ys := by
  induction xs with
  | nil => intro ys seen; simp [keys_of, dedup_aux]
  | cons r rs ih =>
    intro ys seen
    simp only [List.cons_append, dedup_aux, List.append_eq]
    by_cases hk : row_key r ∈ seen
    · rw [if_pos hk, if_pos hk, ih ys seen]
      congr 1
      apply dedup_aux_congr
      intro k
      simp only [keys_of, List.map_cons, List.mem_append, List.mem_cons]
      constructor
      · rintro (h1 | h1)
        · exact Or.inl (Or.inr h1)
        · exact Or.inr h1
      · rintro (h1 | h1)
        · rcases h1 with rfl | h1
          · exact Or.inr hk
          · exact Or.inl h1
        · exact Or.inr h1
    · rw [if_neg hk, if_neg hk, ih ys (row_key r :: seen)]
      simp only [List.cons_append]
      congr 2
      apply dedup_aux_congr
      intro k
      simp only [keys_of, List.map_cons, List.mem_append, List.mem_cons]
      constructor
      · rintro (h1 | h1 | h1)
        · exact Or.inl (Or.inr h1)
        · exact Or.inl (Or.inl h1)
        · exact Or.inr h1
      · rintro ((h1 | h1) | h1)
        · exact Or.inr (Or.inl h1)
        · exact Or.inl h1
        · exact Or.inr (Or.inr h1)

/-- Rows whose keys were all seen already are dropped entirely. -/
theorem dedup_aux_nil_of_mem (xs : List Row) : ∀ seen : List (String × String),
    (∀ r ∈ xs, row_key r ∈ seen) → dedup_aux seen xs = [] := by
  induction xs with
  | nil => intro seen _; rfl
  | cons r rs ih =>
    intro seen h
    simp only [dedup_aux]
    rw [if_pos (h r (List.mem_cons_self r rs))]
    exact ih seen (fun x hx => h x (List.mem_cons_of_mem r hx))

/-- A key occurring in the input and not in `seen` survives deduplication. -/
theorem mem_keys_dedup_aux (xs : List Row) : ∀ (seen : List (String × String))
    (k : String × String), k ∈ keys_of xs → k ∉ seen → k ∈ keys_of (dedup_aux seen xs) := by
  induction xs with
  | nil => intro seen k h _; simp [keys_of] at h
  | cons r rs ih =>
    intro seen k hk hns
    simp only [keys_of, List.map_cons, List.mem_cons] at hk
    simp only [dedup_aux]
    by_cases hr : row_key r ∈ seen
    · rw [if_pos hr]
      rcases hk with rfl | hk
      · exact absurd hr hns
      · exact ih seen k hk hns
    · rw [if_neg hr]
      simp only [keys_of, List.map_cons, List.mem_cons]
      rcases hk with rfl | hk
      · exact Or.inl rfl
      · by_cases hkr : k = row_key r
        · exact Or.inl hkr
        · refine Or.inr (ih (row_key r :: seen) k hk ?_)
          simp only [List.mem_cons]
          rintro (h1 | h2)
          · exact hkr h1
          · exact hns h2

/-- Every surviving row has a key outside `seen`. -/
theorem dedup_aux_key_not_seen (xs : List Row) : ∀ (seen : List (String × String))
    (r : Row), r ∈ dedup_aux seen xs → row_key r ∉ seen := by
  induction xs with
  | nil => intro seen r h; simp [dedup_aux] at h
  | cons x rs ih =>
    intro seen r h
    simp only [dedup_aux] at h
    by_cases hx : row_key x ∈ seen
    · rw [if_pos hx] at h
      exact ih seen r h
    · rw [if_neg hx] at h
      rcases List.mem_cons.mp h with rfl | h2
      · exact hx
      · intro hc
        exact ih (row_key x :: seen) r h2 (List.mem_cons_of_mem _ hc)

/-- Deduplication leaves pairwise-distinct keys. -/
theorem dedup_aux_nodup_keys (xs : List Row) : ∀ seen : List (String × String),
    (keys_of (dedup_aux seen xs)).Nodup := by
  induction xs with
  | nil => intro seen; simp [dedup_aux, keys_of]
  | cons r rs ih =>
    intro seen
    simp only [dedup_aux]
    by_cases hr : row_key r ∈ seen
    · rw [if_pos hr]
      exact ih seen
    · rw [if_neg hr]
      simp only [keys_of, List.map_cons, List.nodup_cons]
      refine ⟨?_, ih _⟩
      intro hc
      rcases List.mem_map.mp hc with ⟨x, hx, hxk⟩
      have hn := dedup_aux_key_not_seen rs _ x hx
      rw [hxk] at hn
      exact hn (List.mem_cons_self _ _)

/-- A list with pairwise-distinct keys, none of them in `seen`, is left
unchanged by `dedup_aux`. -/
theorem dedup_aux_id (xs : List Row) : ∀ seen : List (String × String),
    (keys_of xs).Nodup → (∀ r ∈ xs, row_key r ∉ seen) → dedup_aux seen xs = xs := by
  induction xs with
  | nil => intro seen _ _; rfl
  | cons r rs ih =>
    intro seen hnd hs
    have hnd' : (∀ x ∈ rs, ¬row_key x = row_key r) ∧ (List.map row_key rs).Nodup := by
      simpa [keys_of] using hnd
    simp only [dedup_aux]
    rw [if_neg (hs r (List.mem_cons_self r rs))]
    congr 1
    apply ih
    · simpa [keys_of] using hnd'.2
    · intro x hx
      simp only [List.mem_cons]
      rintro (h1 | h2)
      · exact hnd'.1 x hx h1
      · exact hs x (List.mem_cons_of_mem r hx) h2

/-- Deduplication does not change which row is found first for an unseen
key. -/
theorem find_row_dedup_aux (xs : List Row) : ∀ (seen : List (String × String))
    (k : String × String), k ∉ seen → find_row k (dedup_aux seen xs) = find_row k xs := by
  induction xs with
  | nil => intro seen k _; rfl
  | cons r rs ih =>
    intro seen k hk
    simp only [dedup_aux, find_row]
    by_cases hr : row_key r ∈ seen
    · rw [if_pos hr]
      have hne : row_key r ≠ k := fun h => hk (h ▸ hr)
      rw [ih seen k hk, if_neg hne]
    · rw [if_neg hr]
      simp only [find_row]
      by_cases he : row_key r = k
      · rw [if_pos he, if_pos he]
      · rw [if_neg he, if_neg he]
        apply ih
        simp only [List.mem_cons]
        rintro (h1 | h2)
        · exact he h1.symm
        · exact hk h2

/-- A key found in the first half of an append is found there. -/
theorem find_row_append_left (E N : List Row) (k : String × String)
    (h : (find_row k E).isSome) : find_row k (E ++ N) = find_row k E := by
  induction E with
  | nil => simp [find_row] at h
  | cons r rs ih =>
    simp only [List.cons_append, find_row, List.append_eq] at h ⊢
    by_cases he : row_key r = k
    · rw [if_pos he, if_pos he]
    · rw [if_neg he, if_neg he]
      rw [if_neg he] at h
      exact ih h

/-! ### C1 — last-write-wins merge -/

/-- Existing row: key ("Gemcraft", "https://itch.io/gemcraft"), price $5. -/
def c1_old_row : Row :=
  { title := "Gemcraft", url := "https://itch.io/gemcraft", author := "anim8or",
    price := "$5", thumbnail_path := none, scrape_date := "2026-01-01" }

/-- New observation of the same key, price $3. -/
def c1_new_row : Row :=
  { title := "Gemcraft", url := "https://itch.io/gemcraft", author := "anim8or",
    price := "$3", thumbnail_path := none, scrape_date := "2026-02-01" }

/-- C1 counterexample: with `E = [c1_old_row]` (price $5) and
`N = [c1_new_row]` (same dedup key, price $3), the merged dataset is
`[c1_old_row]`: the new row is absent and the merged row's price is $5,
not $3 — the merge keeps the first (existing) observation, so the claimed
last-write-wins rule fails. -/
theorem c1_last_write_wins_cex :
    merge_rows [c1_old_row] [c1_new_row] = [c1_old_row] ∧
    c1_new_row ∉ merge_rows [c1_old_row] [c1_new_row] ∧
    row_key c1_old_row = row_key c1_new_row ∧
    c1_new_row.price = "$3" ∧
    (merge_rows [c1_old_row] [c1_new_row]).map Row.price = ["$5"] := by
  decide

/-- C1 (amended): first-write-wins — for any dedup key already present in
the existing dataset `E`, the merged dataset's first row for that key is
`E`'s first row for it; the new observation from `N` does not win. -/
theorem c1_merge_keeps_existing (E N : List Row) (k : String × String)
    (h : (find_row k E).isSome) : find_row k (merge_rows E N) = find_row k E := by
  show find_row k (dedup_aux [] (E ++ N)) = find_row k E
  rw [find_row_dedup_aux (E ++ N) [] k (List.not_mem_nil k)]
  exact find_row_append_left E N k h

/-- Witness for `c1_merge_keeps_existing` at the concrete $5/$3 rows. -/
theorem c1_merge_keeps_existing_witness :
    find_row (row_key c1_old_row) (merge_rows [c1_old_row] [c1_new_row]) =
      find_row (row_key c1_old_row) [c1_old_row] :=
  c1_merge_keeps_existing [c1_old_row] [c1_new_row] (row_key c1_old_row) (by decide)

/-! ### C2 — merge idempotence -/

/-- C2: merging an already-merged dataset with the same new-rows batch
again changes nothing: `merge (merge E N) N = merge E N`. -/
theorem c2_merge_idempotent (E N : List Row) :
    merge_rows (merge_rows E N) N = merge_rows E N := by
  show dedup_aux [] (dedup_aux [] (E ++ N) ++ N) = dedup_aux [] (E ++ N)
  rw [dedup_aux_append]
  rw [dedup_aux_id (dedup_aux [] (E ++ N)) [] (dedup_aux_nodup_keys (E ++ N) [])
    (fun r _ => List.not_mem_nil _)]
  have hN : dedup_aux (keys_of (dedup_aux [] (E ++ N)) ++ []) N = [] := by
    apply dedup_aux_nil_of_mem
    intro r hr
    rw [List.append_nil]
    refine mem_keys_dedup_aux (E ++ N) [] (row_key r) ?_ (List.not_mem_nil _)
    exact List.mem_map_of_mem row_key (List.mem_append_right E hr)
  rw [hN, List.append_nil]

/-! ### C3 — key uniqueness after merge -/

/-- Row with unresolvable URL stored under the sentinel "N/A". -/
def c3_row_a : Row :=
  { title := "Alpha Quest", url := "N/A", author := "N/A",
    price := "Free", thumbnail_path := none, scrape_date := "2026-01-01" }

/-- A different title that received the same sentinel URL. -/
def c3_row_b : Row :=
  { title := "Beta Blast", url := "N/A", author := "N/A",
    price := "Free", thumbnail_path := none, scrape_date := "2026-02-01" }

/-- C3 counterexample: the dataset has no `listingType` column and the
dedup key is `(title, url)`, so two distinct rows sharing a `url` (here the
sentinel "N/A") both survive the merge — uniqueness of `(url, listingType)`
fails. -/
theorem c3_key_uniqueness_cex :
    merge_rows [c3_row_a] [c3_row_b] = [c3_row_a, c3_row_b] ∧
    c3_row_a.url = c3_row_b.url ∧
    c3_row_a ≠ c3_row_b := by
  decide

/-- C3 (amended): after any merge, no two rows share the code's actual
dedup key `(title, url)`. -/
theorem c3_title_url_unique (E N : List Row) : (keys_of (merge_rows E N)).Nodup :=
  dedup_aux_nodup_keys (E ++ N) []

/-! ### C10 — merge preserves existing rows unchanged -/

/-- C10: frame property of the merge — if the existing dataset has
pairwise-distinct keys (as every previously merged dataset does), the
merged dataset starts with exactly the existing rows, unchanged and in
order, followed only by new rows whose keys are fresh; a new observation
of an already-stored `(title, url)` pair is discarded. -/
theorem c10_merge_frame (E N : List Row) (h : (keys_of E).Nodup) :
    merge_rows E N = E ++ dedup_aux (keys_of E) N ∧
    (dedup_aux (keys_of E) N).all
      (fun r => !(decide (row_key r ∈ keys_of E))) = true := by
  constructor
  · show dedup_aux [] (E ++ N) = E ++ dedup_aux (keys_of E) N
    rw [dedup_aux_append, dedup_aux_id E [] h (fun r _ => List.not_mem_nil _),
      List.append_nil]
  · rw [List.all_eq_true]
    intro r hr
    simp [dedup_aux_key_not_seen N (keys_of E) r hr]

/-- Row already persisted before the run. -/
def c10_old_row : Row :=
  { title := "Rogue Mine", url := "https://itch.io/rogue-mine", author := "dev",
    price := "$2", thumbnail_path := none, scrape_date := "2026-01-01" }

/-- Fresh observation of the same `(title, url)` pair with a new price. -/
def c10_new_row : Row :=
  { title := "Rogue Mine", url := "https://itch.io/rogue-mine", author := "dev",
    price := "$9", thumbnail_path := none, scrape_date := "2026-03-01" }

/-- Witness for `c10_merge_frame` at a concrete one-row dataset. -/
theorem c10_merge_frame_witness :
    merge_rows [c10_old_row] [c10_new_row] =
      [c10_old_row] ++ dedup_aux (keys_of [c10_old_row]) [c10_new_row] ∧
    (dedup_aux (keys_of [c10_old_row]) [c10_new_row]).all
      (fun r => !(decide (row_key r ∈ keys_of [c10_old_row]))) = true :=
  c10_merge_frame [c10_old_row] [c10_new_row] (by decide)

/-! ### C4 — price parsing -/

/-- C4 counterexample: the script stores the raw stripped price text.  For
"$4.99" the stored value is the string "$4.99" — not a numeric amount 4.99
with the currency "$" split off; for an empty text the stored value is ""
— not an absent price marked free; for "free" the stored value is the
string "free" — no case-insensitive free marker is recognised.  The
claimed parsing policy is not implemented. -/
theorem c4_price_parsing_cex :
    extract_price (some "$4.99") = "$4.99" ∧ "$4.99" ≠ "4.99" ∧
    extract_price (some "") = "" ∧ ("" : String) ≠ "Free" ∧
    extract_price (some "free") = "free" := by
  decide

/-- C4 (amended): the scraper performs no price parsing — the record's
price field is the price element's stripped raw text, and the literal
string "Free" exactly when the element is absent; no amount, currency or
free flag is derived and no error can be raised. -/
theorem c4_price_raw_text (env : FetchEnv) (it : Item) (d : String) (fs : FS) :
    ((mk_game_data env it d fs).1).price =
      match it.priceText with
      | some s => py_strip s
      | none => "Free" := by
  obtain ⟨tt, hr, au, pt, th⟩ := it
  cases pt <;> rfl

/-! ### C5 — pagination termination -/

/-- Modelled from the spec: the Paginator requests pages starting at 1 and
stops after a page that yields zero stubs, or once `maxPages` is reached
(the repository has no such paginator — `run_scraper` hardcodes pages 1-2,
so this definition exists only to state what the claim asserts). -/
def spec_requested_pages_go (src : Nat → List Item) (maxPages : Nat) :
    Nat → Nat → List Nat
  | 0, _ => []
  | fuel + 1, p =>
    if maxPages < p then []
    else if src p = [] then [p]
    else p :: spec_requested_pages_go src maxPages fuel (p + 1)

/-- Modelled from the spec: the full list of pages the claimed paginator
would request. -/
def spec_requested_pages (src : Nat → List Item) (maxPages : Nat) : List Nat :=
  spec_requested_pages_go src maxPages (maxPages + 1) 1

/-- A game cell used by the pagination examples. -/
def c5_item : Item :=
  { titleText := some "Gleam", href := some "/gleam", authorText := none,
    priceText := none, thumbSrc := none }

/-- A listing source with two non-empty pages and an empty page 3. -/
def c5_src : Nat → List Item := fun p => if p ≤ 2 then [c5_item] else []

/-- C5 counterexample: for a source whose page 3 is empty and a bound
`maxPages = 5 > 3`, the claimed paginator would request pages 1, 2 and 3
and stop after observing the empty page 3; the script requests exactly
pages 1 and 2 (`range(1, 3)`) and never fetches page 3 — there is no
empty-page termination and no `maxPages` bound. -/
theorem c5_pagination_cex :
    spec_requested_pages c5_src 5 = [1, 2, 3] ∧
    page_numbers = [1, 2] ∧
    3 ∉ page_numbers := by
  decide

/-- Computation rule for the two-page loop of `run_scraper`. -/
theorem scrape_listing_unfold (env : FetchEnv) (fp : Nat → Option (List Item))
    (d : String) (fs : FS) :
    scrape_listing env fp d fs =
      ((scrape_listing_page env (fp 1) d fs).1 ++
        (scrape_listing_page env (fp 2) d (scrape_listing_page env (fp 1) d fs).2).1,
       (scrape_listing_page env (fp 2) d (scrape_listing_page env (fp 1) d fs).2).2) := by
  simp [scrape_listing, page_numbers, List.foldl]

/-- C5 (amended): the scraper requests exactly pages 1 and 2 of each
listing (hardcoded `range(1, 3)`); its output is exactly the records of
page 1 followed by those of page 2, whatever any later page would hold. -/
theorem c5_exactly_two_pages (env : FetchEnv) (fp : Nat → Option (List Item))
    (d : String) (fs : FS) :
    (scrape_listing env fp d fs).1 =
      (scrape_listing_page env (fp 1) d fs).1 ++
        (scrape_listing_page env (fp 2) d (scrape_listing_page env (fp 1) d fs).2).1 := by
  rw [scrape_listing_unfold]

/-! ### C6 — thumbnail cache -/

/-- Environment in which every GET succeeds. -/
def env0 : FetchEnv := { ok := fun _ => true }

/-- Empty initial filesystem state. -/
def fs0 : FS := { files := [], fetches := [] }

/-- A thumbnail URL used twice. -/
def c6_url : String := "https://img.itch.zone/aW1n/thumb.png"

/-- First call of `download_thumbnail` on `c6_url`. -/
def c6_call1 : Option String × FS :=
  download_thumbnail env0 (some c6_url) "Game" "2026-10-12" fs0

/-- Second call with the same URL, on the state the first call left. -/
def c6_call2 : Option String × FS :=
  download_thumbnail env0 (some c6_url) "Game" "2026-10-12" c6_call1.2

/-- C6 counterexample: calling `download_thumbnail` twice with the same URL
issues two GET requests, not one, even though after the first call the
derived file already exists on disk — the function never checks for the
file and has no cache. -/
theorem c6_cache_cex :
    c6_call2.2.fetches = [c6_url, c6_url] ∧
    c6_call2.2.fetches.length ≠ 1 ∧
    c6_call1.2.files = [thumb_filepath c6_url "Game" "2026-10-12"] := by
  decide

/-- C6 (amended): every call of `download_thumbnail` with a non-empty URL
issues exactly one new GET request, whatever the filesystem state — there
is no cache hit. -/
theorem c6_always_fetches (env : FetchEnv) (u t d : String) (fs : FS)
    (h : u ≠ "") :
    ((download_thumbnail env (some u) t d fs).2).fetches = fs.fetches ++ [u] := by
  simp only [download_thumbnail]
  rw [if_neg h]
  by_cases hok : env.ok u = true <;> simp [hok]

/-- Witness for `c6_always_fetches` at the concrete URL. -/
theorem c6_always_fetches_witness :
    ((download_thumbnail env0 (some c6_url) "Game" "2026-10-12" fs0).2).fetches =
      fs0.fetches ++ [c6_url] :=
  c6_always_fetches env0 c6_url "Game" "2026-10-12" fs0 (by decide)

/-! ### C7 — stub record URL invariant -/

/-- A non-empty string appended to anything is non-empty. -/
theorem append_ne_empty_left (s t : String) (h : s.length ≠ 0) : s ++ t ≠ "" := by
  intro hc
  have h3 : (s ++ t).length = ("" : String).length := by rw [hc]
  rw [String.length_append] at h3
  have h0 : ("" : String).length = 0 := rfl
  omega

/-- Joining a non-empty reference onto `BASE_URL` gives a non-empty URL. -/
theorem urljoin_base_ne (rel : String) (h : rel ≠ "") :
    urljoin BASE_URL rel ≠ "" := by
  unfold urljoin
  split
  · exact h
  · split
    · exact append_ne_empty_left BASE_URL rel (by decide)
    · exact append_ne_empty_left (BASE_URL ++ "/") rel (by decide)

/-- The `url` field of a produced record is never the empty string: it is
either the sentinel "N/A" or a join onto `BASE_URL`. -/
theorem mk_game_data_url_ne (env : FetchEnv) (it : Item) (d : String) (fs : FS) :
    ((mk_game_data env it d fs).1).url ≠ "" := by
  obtain ⟨tt, hr, au, pt, th⟩ := it
  cases tt with
  | none =>
    show ("N/A" : String) ≠ ""
    decide
  | some t =>
    cases hr with
    | none =>
      show ("N/A" : String) ≠ ""
      decide
    | some hrf =>
      show (if hrf = "" then "N/A" else urljoin BASE_URL hrf) ≠ ""
      by_cases hh : hrf = ""
      · rw [if_pos hh]
        decide
      · rw [if_neg hh]
        exact urljoin_base_ne hrf hh

/-- An item whose title anchor has no `href` attribute. -/
def c7_item : Item :=
  { titleText := some "Mystery", href := none, authorText := none,
    priceText := none, thumbSrc := none }

/-- C7 counterexample: an item with an unresolvable URL is not dropped —
it is emitted as a record whose `url` is the sentinel "N/A", which is not
an absolute URL. -/
theorem c7_url_invariant_cex :
    ((scrape_listing_page env0 (some [c7_item]) "2026-10-12" fs0).1).map Row.url = ["N/A"] ∧
    ((scrape_listing_page env0 (some [c7_item]) "2026-10-12" fs0).1).length = 1 ∧
    is_absolute_url "N/A" = false := by
  decide

/-- C7 (amended): `scrape_listing_page` emits exactly one record per parsed
game cell — no record is ever dropped — and a record's `url` is never the
empty string (unresolvable URLs get the non-absolute sentinel "N/A"). -/
theorem c7_records_kept (env : FetchEnv) (its : List Item) (d : String) (fs : FS) :
    ((scrape_items env d its fs).1).length = its.length ∧
    ((scrape_items env d its fs).1).all (fun r => !(r.url == "")) = true := by
  induction its generalizing fs with
  | nil => exact ⟨rfl, rfl⟩
  | cons it rest ih =>
    obtain ⟨ih1, ih2⟩ := ih (mk_game_data env it d fs).2
    constructor
    · show ((mk_game_data env it d fs).1 ::
        (scrape_items env d rest (mk_game_data env it d fs).2).1).length = rest.length + 1
      simp [ih1]
    · show ((mk_game_data env it d fs).1 ::
        (scrape_items env d rest (mk_game_data env it d fs).2).1).all
          (fun r => !(r.url == "")) = true
      rw [List.all_cons]
      simp only [ih2, Bool.and_true]
      simp [mk_game_data_url_ne env it d fs]

/-! ### C8 — fetch failure semantics -/

/-- An item appearing on page 2 of the failure example. -/
def c8_item : Item :=
  { titleText := some "Solo", href := some "/solo", authorText := none,
    priceText := none, thumbSrc := none }

/-- A listing whose page 1 fetch fails and whose page 2 has one item. -/
def c8_fp : Nat → Option (List Item) := fun p => if p = 2 then some [c8_item] else none

/-- C8 counterexample: a fetch failure on page 1 does not abort the
listing's pagination — page 2 is still fetched and its record emitted, so
the output is non-empty. -/
theorem c8_abort_cex :
    (scrape_listing env0 c8_fp "2026-10-12" fs0).1 ≠ [] ∧
    ((scrape_listing env0 c8_fp "2026-10-12" fs0).1).length = 1 := by
  decide

/-- C8 (amended): a fetch failure on page 1 contributes zero records for
that page only; page 2 is still fetched on the unchanged state and its
records are the whole output, which flows into the merge. -/
theorem c8_failure_not_fatal (env : FetchEnv) (fp : Nat → Option (List Item))
    (d : String) (fs : FS) (h : fp 1 = none) :
    (scrape_listing env fp d fs).1 = (scrape_listing_page env (fp 2) d fs).1 := by
  rw [scrape_listing_unfold, h]
  simp [scrape_listing_page]

/-- Witness for `c8_failure_not_fatal` at the concrete failing listing. -/
theorem c8_failure_not_fatal_witness :
    (scrape_listing env0 c8_fp "2026-10-12" fs0).1 =
      (scrape_listing_page env0 (c8_fp 2) "2026-10-12" fs0).1 :=
  c8_failure_not_fatal env0 c8_fp "2026-10-12" fs0 rfl

/-! ### C9 — thumbnail filename sanitization -/

/-- C9: the identity component of the thumbnail filename is the title with
every character outside `[A-Za-z0-9_-]` replaced by '_', truncated to at
most 50 characters, and therefore contains only characters of that class. -/
theorem c9_safe_title_sanitizes (t : String) :
    (safe_title t).data = (t.data.take 50).map sanitize_char ∧
    (safe_title t).length ≤ 50 ∧
    (safe_title t).data.all allowed_char = true := by
  refine ⟨?_, ?_, ?_⟩
  · show (t.data.map sanitize_char).take 50 = (t.data.take 50).map sanitize_char
    rw [List.map_take]
  · show ((t.data.map sanitize_char).take 50).length ≤ 50
    rw [List.length_take]
    exact min_le_left _ _
  · rw [List.all_eq_true]
    intro c hc
    have hmem : c ∈ t.data.map sanitize_char := List.mem_of_mem_take hc
    rcases List.mem_map.mp hmem with ⟨c0, _, rfl⟩
    unfold sanitize_char
    by_cases hac : allowed_char c0 = true
    · rw [if_pos hac]
      exact hac
    · rw [if_neg hac]
      decide
